import Mathlib

/-!
Verification development for the shadow-fastapi streaming service.

Shallow embedding of `src/ShadowFunction/__init__.py`: the event-envelope
vocabulary, the intermediate-step callback (`handle_streaming_intermediate_steps`),
the producer task (`agent_stream_task`), the polling consumer loop
(`stream_events`), the request model / transport adapter (`shadow_sk`), and the
query-combination logic of `event_stream`.

Python machine-level details are abstracted where no branch of the embedded
code depends on them: Python values are modelled by `PyVal`, where containers
(`vlist`/`vdict`) and floats carry their textual rendering opaquely, and an
opaque SDK object (`vobj`) records whether `str()` succeeds on it.  Stateful
asyncio code (queue, background task, `stream_finished` flag) is modelled by
explicit state passing, with a schedule parameter ranging over all
interleavings of producer steps with consumer-loop iterations.
-/

namespace ShadowFastapi

/-- Model of a Python value as branched on by the source
(`isinstance(x, (str, int, float, bool, list, dict, type(None)))` checks and
`str(x)` calls).  `vfloat`, `vlist` and `vdict` carry their `str()` rendering
opaquely (no branch of the embedded code inspects it); `vobj` is an opaque
object on which `str()` returns `strVal` when `strOk` is true and raises an
exception with message `strVal` otherwise. -/
inductive PyVal where
  | vstr (s : String)
  | vint (n : Int)
  | vfloat (reprStr : String)
  | vbool (b : Bool)
  | vnone
  | vlist (reprStr : String)
  | vdict (reprStr : String)
  | vobj (strOk : Bool) (strVal : String)
deriving DecidableEq, Repr

/-- Python `str(v)`; fails (raises) exactly on an opaque object whose
`__str__` raises. -/
def pyStr : PyVal → Except String String
  | .vstr s => .ok s
  | .vint n => .ok (toString n)
  | .vfloat r => .ok r
  | .vbool b => .ok (if b then "True" else "False")
  | .vnone => .ok "None"
  | .vlist r => .ok r
  | .vdict r => .ok r
  | .vobj true sv => .ok sv
  | .vobj false sv => .error sv

/-- Python truthiness, to the extent the embedded code branches on it
(`if arguments and ...`).  Container emptiness is abstracted as truthy;
no embedded branch depends on it. -/
def pyTruthy : PyVal → Bool
  | .vstr s => !s.isEmpty
  | .vint n => n != 0
  | .vfloat _ => true
  | .vbool b => b
  | .vnone => false
  | .vlist _ => true
  | .vdict _ => true
  | .vobj _ _ => true

/-- `isinstance(v, (str, dict))`. -/
def isStrOrDict : PyVal → Bool
  | .vstr _ => true
  | .vdict _ => true
  | _ => false

/-- `isinstance(v, (str, int, float, bool, list, dict, type(None)))`. -/
def isJsonLike : PyVal → Bool
  | .vobj _ _ => false
  | _ => true

/-- Python `str.strip()` whitespace test (ASCII whitespace; Python also strips
some further Unicode whitespace, which no claim exercises). -/
def isPyWhite (c : Char) : Bool :=
  c = ' ' || c = '\t' || c = '\n' || c = '\r' || c = '\x0b' || c = '\x0c'

/-- Python `s.strip()`. -/
def pyStrip (s : String) : String :=
  String.mk (((s.data.dropWhile isPyWhite).reverse.dropWhile isPyWhite).reverse)

/-- An item of a `ChatMessageContent` notification as branched on by the
source: `FunctionCallContent`, `FunctionResultContent`, or any other item type
(carrying its Python type name and its value-as-`str()`-argument). -/
inductive Item where
  | funcCall (name : String) (arguments : PyVal)
  | funcResult (name : String) (result : PyVal)
  | other (tyName : String) (val : PyVal)
deriving DecidableEq, Repr

/-- `type(item).__name__`. -/
def Item.typeName : Item → String
  | .funcCall _ _ => "FunctionCallContent"
  | .funcResult _ _ => "FunctionResultContent"
  | .other ty _ => ty

/-- The envelope vocabulary streamed to the client (the `type` field of each
`event_data` dict built in the source). -/
inductive Envelope where
  | threadInfo (agentName : String) (threadId : String)
  | functionCall (functionName : String) (arguments : PyVal)
  | functionResult (functionName : String) (result : PyVal)
  | content (text : String)
  | intermediate (text : String)
  | intermediateError (err : String) (itemType : String)
  | error (err : String)
  | streamComplete
deriving DecidableEq, Repr

/-- `arguments = str(arguments) if arguments and not isinstance(arguments, (str, dict))`
(the stringification may raise). -/
def coerceArgs (args : PyVal) : Except String PyVal :=
  if pyTruthy args && !isStrOrDict args then (pyStr args).map PyVal.vstr
  else .ok args

/-- `result = str(result) if not isinstance(result, (str, int, float, bool, list, dict, type(None)))`. -/
def coerceResult (res : PyVal) : Except String PyVal :=
  if !isJsonLike res then (pyStr res).map PyVal.vstr
  else .ok res

/-- The body of the per-item `try` block of `handle_streaming_intermediate_steps`:
build the envelope for one notification item, propagating any exception. -/
def buildEnvelope : Item → Except String Envelope
  | .funcCall n args => (coerceArgs args).map (Envelope.functionCall n)
  | .funcResult n res => (coerceResult res).map (Envelope.functionResult n)
  | .other _ v => (pyStr v).map Envelope.intermediate

/-- One item of the callback, `try`/`except` included: a failure is caught
locally and becomes an `intermediate_error` envelope carrying the exception
message and `type(item).__name__`. -/
def processItem (it : Item) : Envelope :=
  match buildEnvelope it with
  | .ok e => e
  | .error msg => Envelope.intermediateError msg it.typeName

/-- `handle_streaming_intermediate_steps`: enqueue one envelope per item of the
notification message, never aborting on a malformed item. -/
def handle_streaming_intermediate_steps (items : List Item) : List Envelope :=
  items.map processItem

/-- One item of the main streaming loop's inline `response.items` handling
(no `try`/`except` here in the source: a failure propagates to the outer
handler).  Items that are neither calls nor results are ignored. -/
def processMainItem : Item → Except String (List Envelope)
  | .funcCall n args => (coerceArgs args).map (fun a => [Envelope.functionCall n a])
  | .funcResult n res => (coerceResult res).map (fun r => [Envelope.functionResult n r])
  | .other _ _ => .ok []

/-- The inline item loop of `agent_stream_task`; returns the envelopes enqueued
before a failure, and the failure message when one is raised. -/
def processMainItems : List Item → List Envelope × Option String
  | [] => ([], none)
  | it :: rest =>
    match processMainItem it with
    | .ok envs =>
      let (es, err) := processMainItems rest
      (envs ++ es, err)
    | .error msg => ([], some msg)

/-- A native streaming response chunk, as accessed by the source:
`getattr(response, 'name', ...)`, `response.thread.id` (behind
`hasattr` guards), `response.items`, `response.content`.
`none` models a missing attribute / a `None` value. -/
structure Chunk where
  name : Option String
  thread : Option String
  items : List Item
  content : Option PyVal
deriving DecidableEq, Repr

/-- The body of the `async for` loop of `agent_stream_task` for one chunk:
thread-info on the first chunk, then inline call/result items, then the
content envelope when the chunk text is non-empty after `strip()`.  Returns
the envelopes enqueued before any raised exception, and its message. -/
def processChunk (first : Bool) (c : Chunk) : List Envelope × Option String :=
  let ti :=
    if first then
      [Envelope.threadInfo (c.name.getD "Unknown") (c.thread.getD "Unknown")]
    else []
  match processMainItems c.items with
  | (es, some msg) => (ti ++ es, some msg)
  | (es, none) =>
    match (match c.content with | none => Except.ok "" | some v => pyStr v) with
    | .error msg => (ti ++ es, some msg)
    | .ok s =>
      (ti ++ es ++ (if (pyStrip s).isEmpty then [] else [Envelope.content s]), none)

/-- One upstream occurrence during `agent.invoke_stream`: either an invocation
of the registered `on_intermediate_message` callback, or a native streaming
chunk.  Cooperative single-threaded scheduling serialises these. -/
inductive UpEvent where
  | callback (items : List Item)
  | chunk (c : Chunk)
deriving DecidableEq, Repr

/-- One run of the native upstream stream: its serialised events, and the
message of an exception escaping the stream after them, if any. -/
structure UpstreamRun where
  events : List UpEvent
  failure : Option String
deriving DecidableEq, Repr

/-- The event loop of `agent_stream_task` over the upstream events, threading
the `first_chunk` flag; stops at the first exception, returning the envelopes
enqueued so far and the exception message. -/
def producerLoop : Bool → List UpEvent → List Envelope × Option String
  | _, [] => ([], none)
  | first, .callback items :: rest =>
    let (es, err) := producerLoop first rest
    (handle_streaming_intermediate_steps items ++ es, err)
  | first, .chunk c :: rest =>
    match processChunk first c with
    | (es, none) =>
      let (es2, err) := producerLoop false rest
      (es ++ es2, err)
    | (es, some msg) => (es, some msg)

/-- The envelopes the producer task enqueued, and the final value of the
`stream_finished` flag (set in `finally`). -/
structure ProducerOutput where
  envs : List Envelope
  stream_finished : Bool
deriving DecidableEq, Repr

/-- `agent_stream_task`: drive the upstream stream, enqueue `stream_complete`
on exhaustion without error, enqueue `error` with the exception message when
any exception escapes, and set `stream_finished` in `finally` either way. -/
def agent_stream_task (run : UpstreamRun) : ProducerOutput :=
  match producerLoop true run.events with
  | (es, some msg) => ⟨es ++ [Envelope.error msg], true⟩
  | (es, none) =>
    match run.failure with
    | some msg => ⟨es ++ [Envelope.error msg], true⟩
    | none => ⟨es ++ [Envelope.streamComplete], true⟩

/-! ### The consumer loop (`stream_events`)

The producer task and the consumer loop share the asyncio queue and the
`stream_finished` flag.  Concurrency is modelled by a schedule: each consumer
iteration is preceded by some number of atomic producer steps (run before the
loop-condition check) and some further number run while the consumer waits
inside `asyncio.wait_for(event_queue.get(), timeout=0.1)`.  A producer step
either moves its next envelope onto the queue or, once all envelopes are
enqueued, runs the `finally` block setting `stream_finished`. -/

/-- Producer-side state: envelopes not yet enqueued, and the
`stream_finished` flag. -/
structure PState where
  pending : List Envelope
  finished : Bool
deriving DecidableEq, Repr

/-- One atomic producer step: enqueue the next envelope, or (when all are
enqueued) set `stream_finished` in the `finally` block. -/
def prodStep : PState → List Envelope → PState × List Envelope
  | ⟨e :: rest, f⟩, q => (⟨rest, f⟩, q ++ [e])
  | ⟨[], _⟩, q => (⟨[], true⟩, q)

/-- `k` atomic producer steps. -/
def prodSteps : Nat → PState → List Envelope → PState × List Envelope
  | 0, p, q => (p, q)
  | Nat.succ k, p, q =>
    match prodStep p q with
    | (p1, q1) => prodSteps k p1 q1

/-- How the consumption loop of `stream_events` exited: `breakComplete` is the
`break` on a dequeued `stream_complete`; `condExit` is the `while` condition
turning false (`stream_finished and event_queue.empty()`); `fuelOut` is a
model artifact for an exhausted step budget (the loop still running). -/
inductive ExitKind where
  | breakComplete
  | condExit
  | fuelOut
deriving DecidableEq, Repr

/-- Result of the consumption loop: the envelopes yielded to the transport in
order, the exit kind, and the final producer/queue state. -/
structure LoopResult where
  emitted : List Envelope
  exit : ExitKind
  finalP : PState
  finalQ : List Envelope
deriving DecidableEq, Repr

/-- The consumption loop of `stream_events`:
`while not stream_finished or not event_queue.empty()`, take with a 0.1 s
timeout, yield the envelope, `break` on `stream_complete`, `continue` on
timeout.  `sched` supplies, per iteration, the producer steps run before the
condition check and during the timed wait; `acc` holds already-yielded
envelopes in reverse. -/
def consumeLoop : Nat → List (Nat × Nat) → PState → List Envelope →
    List Envelope → LoopResult
  | 0, _, p, q, acc => ⟨acc.reverse, .fuelOut, p, q⟩
  | Nat.succ fuel, sched, p, q, acc =>
    match prodSteps (sched.headD (0, 0)).1 p q with
    | (p1, q1) =>
      if p1.finished && q1.isEmpty then ⟨acc.reverse, .condExit, p1, q1⟩
      else
        match prodSteps (sched.headD (0, 0)).2 p1 q1 with
        | (p2, q2) =>
          match q2 with
          | [] => consumeLoop fuel sched.tail p2 [] acc
          | e :: rest =>
            if e = Envelope.streamComplete then
              ⟨(e :: acc).reverse, .breakComplete, p2, rest⟩
            else consumeLoop fuel sched.tail p2 rest (e :: acc)

/-- `timeout=0.1` seconds in `asyncio.wait_for`, as milliseconds. -/
def pollTimeoutMs : Nat := 100

/-- Result of `stream_events`: the yielded envelopes plus whether
`await agent_task` ran (it runs whenever the loop exits). -/
structure StreamResult where
  emitted : List Envelope
  exit : ExitKind
  producerFinished : Bool
  finalQueue : List Envelope
  awaitedProducer : Bool
deriving DecidableEq, Repr

/-- `stream_events` on a producer that will enqueue exactly the envelopes `P`:
run the consumption loop from an empty queue with the agent task just
started, then `await agent_task`. -/
def stream_events (fuel : Nat) (sched : List (Nat × Nat)) (P : List Envelope) :
    StreamResult :=
  { emitted := (consumeLoop fuel sched ⟨P, false⟩ [] []).emitted
    exit := (consumeLoop fuel sched ⟨P, false⟩ [] []).exit
    producerFinished := (consumeLoop fuel sched ⟨P, false⟩ [] []).finalP.finished
    finalQueue := (consumeLoop fuel sched ⟨P, false⟩ [] []).finalQ
    awaitedProducer :=
      match (consumeLoop fuel sched ⟨P, false⟩ [] []).exit with
      | .fuelOut => false
      | _ => true }

/-! ### `event_stream`: query combination, thread resolution, full stream -/

/-- The caller's request body, as the pydantic model `ShadowRequest` declares
it: `query` and `threadId` required strings, the rest optional with
default `None`. -/
structure ShadowRequest where
  query : String
  threadId : String
  additional_instructions : Option String := none
  user_company : Option String := none
  target_account : Option String := none
  demand_stage : Option String := none
deriving DecidableEq, Repr

/-- Python `repr` of an optional-string parameter value as it appears inside
`str(params)`: `None`, or the string in single quotes (quote/backslash
escaping inside ids is not exercised by any claim). -/
def reprParam : Option String → String
  | none => "None"
  | some s => "'" ++ s ++ "'"

/-- `str(params)` for
`params = {"target_account": ..., "user_company": ..., "demand_stage": ...}`. -/
def paramsStr (r : ShadowRequest) : String :=
  "\x7b'target_account': " ++ reprParam r.target_account ++
  ", 'user_company': " ++ reprParam r.user_company ++
  ", 'demand_stage': " ++ reprParam r.demand_stage ++ "\x7d"

/-- `combined_query = f"{query} - {params}"`: the message sent to the
upstream assistant. -/
def combined_query (r : ShadowRequest) : String :=
  r.query ++ " - " ++ paramsStr r

/-- `if threadId:` — the thread handle passed to `invoke_stream`: the supplied
id when non-empty (an `AssistantAgentThread` around it), else `None`. -/
def currentThreadOf (threadId : String) : Option String :=
  if threadId.isEmpty then none else some threadId

/-- Modelled from the spec: the remote assistant capability
`createThread() -> ThreadId` (not in `src/`; the spec promises a newly
generated, non-empty id that differs across requests).  Fresh ids are
abstracted as distinct opaque strings indexed by a service counter. -/
def createThread (counter : Nat) : String :=
  String.mk (List.replicate (counter + 1) 't')

/-- Modelled from the spec: the thread the remote service resolves for a
request — the supplied thread when one is passed, else a newly created one. -/
def remoteResolvedThread (current : Option String) (counter : Nat) : String :=
  current.getD (createThread counter)

/-- The resolved thread id for a request's `threadId` field. -/
def resolvedThreadId (threadId : String) (counter : Nat) : String :=
  remoteResolvedThread (currentThreadOf threadId) counter

/-- A native chunk carrying only text (items arrive via the callback),
reported against the resolved thread. -/
def textChunk (agentName threadId s : String) : Chunk :=
  ⟨some agentName, some threadId, [], some (.vstr s)⟩

/-- An upstream run made of text-only chunks, ending without error. -/
def mkTextRun (agentName threadId : String) (texts : List String) : UpstreamRun :=
  ⟨texts.map (fun s => UpEvent.chunk (textChunk agentName threadId s)), none⟩

/-- Modelled from the spec: `invokeStream(thread, message, tools) -> stream of
ResponseEvent` (not in `src/`) — every yielded chunk's `threadRef` is the
resolved thread. -/
def invokeStreamModel (agentName resolvedId : String) (texts : List String) :
    UpstreamRun :=
  mkTextRun agentName resolvedId texts

/-- First `thread_info` envelope's thread id in an envelope list. -/
def firstThreadInfoId : List Envelope → Option String
  | [] => none
  | .threadInfo _ tid :: _ => some tid
  | _ :: rest => firstThreadInfoId rest

/-- The thread id surfaced in `thread_info` by `event_stream` for a request,
with the remote modelled per the spec. -/
def eventStreamThreadId (r : ShadowRequest) (counter : Nat)
    (agentName : String) (texts : List String) : Option String :=
  firstThreadInfoId
    (agent_stream_task
      (invokeStreamModel agentName (resolvedThreadId r.threadId counter) texts)).envs

/-- `event_stream` end to end, abstracting the remote as a function from the
combined query and the passed thread handle to an upstream run. -/
def event_stream (remote : String → Option String → UpstreamRun)
    (r : ShadowRequest) (fuel : Nat) (sched : List (Nat × Nat)) : StreamResult :=
  stream_events fuel sched
    (agent_stream_task (remote (combined_query r) (currentThreadOf r.threadId))).envs

/-! ### Transport adapter (`shadow_sk`) -/

/-- A JSON value of an inbound request body. -/
inductive JVal where
  | jstr (s : String)
  | jint (n : Int)
  | jbool (b : Bool)
  | jnull
  | jlist (reprStr : String)
  | jobj (reprStr : String)
deriving DecidableEq, Repr

/-- First value bound to a key in the body object. -/
def lookupJ (body : List (String × JVal)) (k : String) : Option JVal :=
  (body.find? (fun p => p.1 == k)).map (fun p => p.2)

/-- Pydantic validation of a required `str` field. -/
def reqStr : Option JVal → Option String
  | some (.jstr s) => some s
  | _ => none

/-- Pydantic validation of an `Optional[str] = None` field: absent or `null`
is `None`; a string is itself; anything else is a validation error. -/
def optStr : Option JVal → Option (Option String)
  | none => some none
  | some .jnull => some none
  | some (.jstr s) => some (some s)
  | some _ => none

/-- FastAPI/pydantic parsing of the request body into `ShadowRequest`;
`none` is a client validation error (HTTP 422). -/
def parseShadowRequest (body : List (String × JVal)) : Option ShadowRequest := do
  let q ← reqStr (lookupJ body "query")
  let t ← reqStr (lookupJ body "threadId")
  let ai ← optStr (lookupJ body "additional_instructions")
  let uc ← optStr (lookupJ body "user_company")
  let ta ← optStr (lookupJ body "target_account")
  let ds ← optStr (lookupJ body "demand_stage")
  pure ⟨q, t, ai, uc, ta, ds⟩

/-- What the transport does with a request body. -/
inductive TransportOutcome where
  | clientError
  | streamStarted (r : ShadowRequest)
deriving DecidableEq, Repr

/-- The `POST /shadow-sk` handler: a body failing validation is rejected with
a client error; otherwise the `StreamingResponse` over `event_stream` starts. -/
def shadow_sk (body : List (String × JVal)) : TransportOutcome :=
  match parseShadowRequest body with
  | none => .clientError
  | some r => .streamStarted r

/-- Response metadata of a `StreamingResponse`. -/
structure ResponseMeta where
  status_code : Nat
  media_type : String
  headers : List (String × String)
deriving DecidableEq, Repr

/-- The `StreamingResponse` built by `shadow_sk`. -/
def shadow_sk_response : ResponseMeta :=
  { status_code := 200
    media_type := "text/plain"
    headers := [("Cache-Control", "no-cache"), ("Connection", "keep-alive"),
                ("Content-Type", "text/event-stream")] }

/-- Header lookup on the response. -/
def headerValue (m : ResponseMeta) (k : String) : Option String :=
  (m.headers.find? (fun p => p.1 == k)).map (fun p => p.2)

/-! ### Wire format -/

/-- The `type` string of an envelope (the first element of the queued tuple,
used on the `event:` line). -/
def envelopeEventType : Envelope → String
  | .threadInfo _ _ => "thread_info"
  | .functionCall _ _ => "function_call"
  | .functionResult _ _ => "function_result"
  | .content _ => "content"
  | .intermediate _ => "intermediate"
  | .intermediateError _ _ => "intermediate_error"
  | .error _ => "error"
  | .streamComplete => "stream_complete"

/-- `json.dumps` of a string (escaping of exotic characters is not exercised
by any claim). -/
def jq (s : String) : String := "\"" ++ s ++ "\""

/-- `json.dumps` of a payload value.  Containers carry their rendering
opaquely; an opaque object is unreachable here (both enqueue paths coerce
non-JSON-serializable values to `str` first). -/
def jsonOfPyVal : PyVal → String
  | .vstr s => jq s
  | .vint n => toString n
  | .vfloat r => r
  | .vbool b => if b then "true" else "false"
  | .vnone => "null"
  | .vlist r => r
  | .vdict r => r
  | .vobj _ sv => sv

/-- `json.dumps(event_data)` for each envelope's dict, with the key order the
source builds. -/
def envelopeJson : Envelope → String
  | .threadInfo a t =>
    "\x7b\"type\": \"thread_info\", \"agent_name\": " ++ jq a ++
      ", \"thread_id\": " ++ jq t ++ "\x7d"
  | .functionCall n args =>
    "\x7b\"type\": \"function_call\", \"function_name\": " ++ jq n ++
      ", \"arguments\": " ++ jsonOfPyVal args ++ "\x7d"
  | .functionResult n res =>
    "\x7b\"type\": \"function_result\", \"function_name\": " ++ jq n ++
      ", \"result\": " ++ jsonOfPyVal res ++ "\x7d"
  | .content s =>
    "\x7b\"type\": \"content\", \"content\": " ++ jq s ++ "\x7d"
  | .intermediate s =>
    "\x7b\"type\": \"intermediate\", \"content\": " ++ jq s ++ "\x7d"
  | .intermediateError e ty =>
    "\x7b\"type\": \"intermediate_error\", \"error\": " ++ jq e ++
      ", \"item_type\": " ++ jq ty ++ "\x7d"
  | .error e =>
    "\x7b\"type\": \"error\", \"error\": " ++ jq e ++ "\x7d"
  | .streamComplete => "\x7b\"type\": \"stream_complete\"\x7d"

/-- The two `yield`s of one loop iteration, concatenated:
`f"event: {event_type}\n"` then `f"data: {json.dumps(event_data)}\n\n"`. -/
def sseOfEnvelope (e : Envelope) : String :=
  "event: " ++ envelopeEventType e ++ "\n" ++
  "data: " ++ envelopeJson e ++ "\n\n"

/-- The SSE byte stream for a list of yielded envelopes. -/
def wireOf (emitted : List Envelope) : String :=
  String.join (emitted.map sseOfEnvelope)

/-! ### Envelope classification -/

/-- Terminal envelopes: `error` and `stream_complete`. -/
def isTerminal : Envelope → Bool
  | .error _ => true
  | .streamComplete => true
  | _ => false

/-- No terminal envelope in the list. -/
def noTerminal (l : List Envelope) : Bool :=
  l.all (fun e => !isTerminal e)

def isThreadInfo : Envelope → Bool
  | .threadInfo _ _ => true
  | _ => false

def isContentEnv : Envelope → Bool
  | .content _ => true
  | _ => false

/-- Envelope kinds the two notification-item paths can produce: neither
`thread_info`, nor `content`, nor a terminal. -/
def plainEnv : Envelope → Bool
  | .functionCall _ _ => true
  | .functionResult _ _ => true
  | .intermediate _ => true
  | .intermediateError _ _ => true
  | _ => false

/-- Number of `thread_info` envelopes. -/
def countTI (l : List Envelope) : Nat :=
  (l.filter isThreadInfo).length

/-- The texts of the `content` envelopes, in order. -/
def contentTexts (l : List Envelope) : List String :=
  l.filterMap (fun e => match e with | .content s => some s | _ => none)

/-- The first envelope among \x7bthread_info, content\x7d, if any, is a
`thread_info` — so no `content` precedes the first `thread_info`. -/
def okCT : List Envelope → Bool
  | [] => true
  | e :: rest =>
    if isThreadInfo e then true
    else if isContentEnv e then false
    else okCT rest

/-! ### Producer-side lemmas -/

theorem plainEnv_processItem (it : Item) : plainEnv (processItem it) = true := by
  cases it with
  | funcCall n args =>
    unfold processItem buildEnvelope
    cases h : coerceArgs args <;> simp [Except.map, h, plainEnv]
  | funcResult n res =>
    unfold processItem buildEnvelope
    cases h : coerceResult res <;> simp [Except.map, h, plainEnv]
  | other ty v =>
    unfold processItem buildEnvelope
    cases h : pyStr v <;> simp [Except.map, h, plainEnv]

theorem plainEnv_handle (items : List Item) :
    (handle_streaming_intermediate_steps items).all plainEnv = true := by
  induction items with
  | nil => rfl
  | cons it rest ih =>
    simp [handle_streaming_intermediate_steps] at ih ⊢
    exact ⟨plainEnv_processItem it, ih⟩

theorem plainEnv_processMainItem (it : Item) (envs : List Envelope)
    (h : processMainItem it = .ok envs) : envs.all plainEnv = true := by
  cases it with
  | funcCall n args =>
    unfold processMainItem at h
    cases hc : coerceArgs args <;> simp [Except.map, hc] at h
    subst h; simp [plainEnv]
  | funcResult n res =>
    unfold processMainItem at h
    cases hc : coerceResult res <;> simp [Except.map, hc] at h
    subst h; simp [plainEnv]
  | other ty v =>
    unfold processMainItem at h
    simp at h; subst h; simp

theorem plainEnv_processMainItems (items : List Item) :
    (processMainItems items).1.all plainEnv = true := by
  induction items with
  | nil => rfl
  | cons it rest ih =>
    unfold processMainItems
    cases h : processMainItem it with
    | ok envs =>
      simp only []
      simp [List.all_append, plainEnv_processMainItem it envs h, ih]
    | error msg => simp

/-- A `plainEnv` envelope is none of thread-info, content, terminal. -/
theorem plainEnv_spec (e : Envelope) (h : plainEnv e = true) :
    isThreadInfo e = false ∧ isContentEnv e = false ∧ isTerminal e = false := by
  cases e <;> simp [plainEnv] at h ⊢ <;> simp [isThreadInfo, isContentEnv, isTerminal]

theorem countTI_append (xs ys : List Envelope) :
    countTI (xs ++ ys) = countTI xs + countTI ys := by
  simp [countTI, List.filter_append]

theorem countTI_plain (xs : List Envelope) (h : xs.all plainEnv = true) :
    countTI xs = 0 := by
  induction xs with
  | nil => rfl
  | cons e rest ih =>
    simp at h
    have he := (plainEnv_spec e h.1).1
    simp [countTI, List.filter, he] at ih ⊢
    exact ih h.2

theorem noTerminal_append (xs ys : List Envelope) :
    noTerminal (xs ++ ys) = (noTerminal xs && noTerminal ys) := by
  simp [noTerminal, List.all_append]

theorem noTerminal_plain (xs : List Envelope) (h : xs.all plainEnv = true) :
    noTerminal xs = true := by
  simp only [noTerminal, List.all_eq_true] at h ⊢
  intro e he
  have := (plainEnv_spec e (h e he)).2.2
  simp [this]

theorem countTI_processChunk (first : Bool) (c : Chunk) :
    countTI (processChunk first c).1 = if first then 1 else 0 := by
  unfold processChunk
  have hmain := plainEnv_processMainItems c.items
  cases h : processMainItems c.items with
  | mk es err =>
    rw [h] at hmain
    cases err with
    | some msg =>
      simp [countTI_append, countTI_plain es hmain]
      cases first <;> simp [countTI, List.filter, isThreadInfo]
    | none =>
      cases hs : (match c.content with | none => Except.ok "" | some v => pyStr v) with
      | error msg =>
        simp [countTI_append, countTI_plain es hmain]
        cases first <;> simp [countTI, List.filter, isThreadInfo]
      | ok s =>
        simp [countTI_append, countTI_plain es hmain]
        cases first <;> split <;> simp [countTI, List.filter, isThreadInfo]

theorem noTerminal_processChunk (first : Bool) (c : Chunk) :
    noTerminal (processChunk first c).1 = true := by
  unfold processChunk
  have hmain := plainEnv_processMainItems c.items
  cases h : processMainItems c.items with
  | mk es err =>
    rw [h] at hmain
    have hes := noTerminal_plain es hmain
    cases err with
    | some msg =>
      simp [noTerminal_append, hes]
      cases first <;> simp [noTerminal, isTerminal]
    | none =>
      cases hs : (match c.content with | none => Except.ok "" | some v => pyStr v) with
      | error msg =>
        simp [noTerminal_append, hes]
        cases first <;> simp [noTerminal, isTerminal]
      | ok s =>
        simp [noTerminal_append, hes]
        cases first <;> split <;> simp [noTerminal, isTerminal]

/-- The producer's event loop never enqueues a terminal envelope; terminals
come only from the tail of `agent_stream_task`. -/
theorem noTerminal_producerLoop (evs : List UpEvent) :
    ∀ first, noTerminal (producerLoop first evs).1 = true := by
  induction evs with
  | nil => intro first; rfl
  | cons ev rest ih =>
    intro first
    cases ev with
    | callback items =>
      unfold producerLoop
      simp only []
      rw [noTerminal_append]
      have h1 := noTerminal_plain _ (plainEnv_handle items)
      rw [h1]
      cases hrest : producerLoop first rest with
      | mk es2 err2 =>
        have := ih first
        rw [hrest] at this
        simpa using this
    | chunk c =>
      unfold producerLoop
      cases h : processChunk first c with
      | mk es err =>
        have hes := noTerminal_processChunk first c
        rw [h] at hes
        cases err with
        | some msg => simpa using hes
        | none =>
          simp only []
          cases hrest : producerLoop false rest with
          | mk es2 err2 =>
            have h2 := ih false
            rw [hrest] at h2
            rw [noTerminal_append, hes]
            simpa using h2

/-- The producer's event loop emits `thread_info` at most once, and not at all
once the `first_chunk` flag is cleared. -/
theorem countTI_producerLoop (evs : List UpEvent) :
    ∀ first, countTI (producerLoop first evs).1 ≤ if first then 1 else 0 := by
  induction evs with
  | nil => intro first; simp [producerLoop, countTI]
  | cons ev rest ih =>
    intro first
    cases ev with
    | callback items =>
      unfold producerLoop
      simp only []
      cases hrest : producerLoop first rest with
      | mk es2 err2 =>
        have h2 := ih first
        rw [hrest] at h2
        rw [countTI_append, countTI_plain _ (plainEnv_handle items)]
        simpa using h2
    | chunk c =>
      unfold producerLoop
      cases h : processChunk first c with
      | mk es err =>
        have hc := countTI_processChunk first c
        rw [h] at hc
        cases err with
        | some msg =>
          simp only [hc]
          cases first <;> simp
        | none =>
          simp only []
          cases hrest : producerLoop false rest with
          | mk es2 err2 =>
            have h2 := ih false
            rw [hrest] at h2
            rw [countTI_append, hc]
            simp at h2
            cases first <;> simp [h2]

theorem okCT_plain_append (xs l : List Envelope)
    (h : xs.all plainEnv = true) : okCT (xs ++ l) = okCT l := by
  induction xs with
  | nil => rfl
  | cons e rest ih =>
    simp at h
    have he := plainEnv_spec e h.1
    simp [okCT, he.1, he.2.1]
    exact ih (List.all_eq_true.mpr h.2)

theorem okCT_noContent (ys : List Envelope)
    (h : ys.all (fun e => !isContentEnv e) = true) : okCT ys = true := by
  induction ys with
  | nil => rfl
  | cons e rest ih =>
    simp at h
    by_cases hti : isThreadInfo e = true
    · simp [okCT, hti]
    · simp at hti
      simp [okCT, hti, h.1]
      exact ih (by simpa using h.2)

theorem okCT_append_noContent (xs ys : List Envelope) (hx : okCT xs = true)
    (hy : ys.all (fun e => !isContentEnv e) = true) : okCT (xs ++ ys) = true := by
  induction xs with
  | nil => exact okCT_noContent ys hy
  | cons e rest ih =>
    by_cases hti : isThreadInfo e = true
    · simp [okCT, hti]
    · simp at hti
      by_cases hce : isContentEnv e = true
      · simp [okCT, hti, hce] at hx
      · simp at hce
        simp [okCT, hti, hce] at hx ⊢
        exact ih hx

/-- While the `first_chunk` flag is still set, the first chunk's envelopes
start with its `thread_info`. -/
theorem processChunk_true_head (c : Chunk) :
    ∃ tail, (processChunk true c).1 =
      Envelope.threadInfo (c.name.getD "Unknown") (c.thread.getD "Unknown") :: tail := by
  unfold processChunk
  cases h : processMainItems c.items with
  | mk es err =>
    cases err with
    | some msg => exact ⟨es, by simp⟩
    | none =>
      cases hs : (match c.content with | none => Except.ok "" | some v => pyStr v) with
      | error msg => exact ⟨es, by simp⟩
      | ok s =>
        exact ⟨es ++ (if (pyStrip s).isEmpty then [] else [Envelope.content s]),
          by simp⟩

/-- No `content` envelope precedes the first `thread_info` in the producer
loop's output: callback envelopes are neither, and the first chunk opens with
its `thread_info`. -/
theorem okCT_producerLoop (evs : List UpEvent) :
    okCT (producerLoop true evs).1 = true := by
  induction evs with
  | nil => rfl
  | cons ev rest ih =>
    cases ev with
    | callback items =>
      unfold producerLoop
      simp only []
      cases hrest : producerLoop true rest with
      | mk es2 err2 =>
        rw [hrest] at ih
        simp only [] at ih
        rw [okCT_plain_append _ _ (plainEnv_handle items)]
        simpa [hrest] using ih
    | chunk c =>
      unfold producerLoop
      obtain ⟨tail, htail⟩ := processChunk_true_head c
      cases h : processChunk true c with
      | mk es err =>
        rw [h] at htail
        simp only [] at htail
        cases err with
        | some msg =>
          simp only []
          rw [htail]
          simp [okCT, isThreadInfo]
        | none =>
          simp only []
          cases hrest : producerLoop false rest with
          | mk es2 err2 =>
            simp only []
            rw [htail]
            simp [okCT, isThreadInfo]

/-- The producer enqueues a non-terminal prefix followed by exactly one
terminal envelope, and always ends with `stream_finished` set. -/
theorem producer_envs_split (run : UpstreamRun) :
    ∃ es t, (agent_stream_task run).envs = es ++ [t] ∧ noTerminal es = true ∧
      isTerminal t = true ∧ (agent_stream_task run).stream_finished = true := by
  unfold agent_stream_task
  have hnt := noTerminal_producerLoop run.events true
  cases h : producerLoop true run.events with
  | mk es err =>
    rw [h] at hnt
    simp only [] at hnt
    cases err with
    | some msg => exact ⟨es, .error msg, rfl, hnt, rfl, rfl⟩
    | none =>
      cases run.failure with
      | some msg => exact ⟨es, .error msg, rfl, hnt, rfl, rfl⟩
      | none => exact ⟨es, .streamComplete, rfl, hnt, rfl, rfl⟩

/-! ### Consumer-side lemmas -/

/-- Producer steps move envelopes from `pending` to the queue's tail:
`queue ++ pending` is invariant. -/
theorem prodSteps_preserve (k : Nat) (p : PState) (q : List Envelope) :
    (prodSteps k p q).2 ++ (prodSteps k p q).1.pending = q ++ p.pending := by
  induction k generalizing p q with
  | zero => rfl
  | succ k ih =>
    cases p with
    | mk pending finished =>
      cases pending with
      | nil => simp [prodSteps, prodStep, ih]
      | cons e rest => simp [prodSteps, prodStep, ih]

/-- The consumption loop only ever dequeues, in FIFO order: everything it
yields beyond `acc` is a prefix of the envelopes still queued or pending. -/
theorem consumeLoop_prefix (fuel : Nat) (sched : List (Nat × Nat)) (p : PState)
    (q acc : List Envelope) :
    ∃ k, (consumeLoop fuel sched p q acc).emitted =
      acc.reverse ++ (q ++ p.pending).take k := by
  induction fuel generalizing sched p q acc with
  | zero => exact ⟨0, by simp [consumeLoop]⟩
  | succ fuel ih =>
    unfold consumeLoop
    have h1 := prodSteps_preserve (sched.headD (0, 0)).1 p q
    cases hp1 : prodSteps (sched.headD (0, 0)).1 p q with
    | mk p1 q1 =>
      rw [hp1] at h1
      simp only [] at h1
      dsimp only
      by_cases hcond : (p1.finished && q1.isEmpty) = true
      · rw [if_pos hcond]
        exact ⟨0, by simp⟩
      · rw [if_neg hcond]
        have h2 := prodSteps_preserve (sched.headD (0, 0)).2 p1 q1
        cases hp2 : prodSteps (sched.headD (0, 0)).2 p1 q1 with
        | mk p2 q2 =>
          rw [hp2] at h2
          simp only [] at h2
          dsimp only
          have hqp : q2 ++ p2.pending = q ++ p.pending := by rw [h2, h1]
          cases hq2 : q2 with
          | nil =>
            dsimp only
            obtain ⟨k, hk⟩ := ih sched.tail p2 [] acc
            refine ⟨k, ?_⟩
            rw [hk]
            have : p2.pending = q ++ p.pending := by
              have := hqp
              rw [hq2] at this
              simpa using this
            rw [this]
            simp
          | cons e rest =>
            dsimp only
            by_cases he : e = Envelope.streamComplete
            · rw [if_pos he]
              refine ⟨1, ?_⟩
              have : q ++ p.pending = e :: (rest ++ p2.pending) := by
                rw [← hqp, hq2]; simp
              simp [this]
            · rw [if_neg he]
              obtain ⟨k, hk⟩ := ih sched.tail p2 rest (e :: acc)
              refine ⟨k + 1, ?_⟩
              rw [hk]
              have : q ++ p.pending = e :: (rest ++ p2.pending) := by
                rw [← hqp, hq2]; simp
              simp [this, List.take_succ_cons]

/-- When the loop exits through the `while` condition, the producer has
finished and the queue is empty. -/
theorem consumeLoop_condExit (fuel : Nat) (sched : List (Nat × Nat)) (p : PState)
    (q acc : List Envelope)
    (h : (consumeLoop fuel sched p q acc).exit = ExitKind.condExit) :
    (consumeLoop fuel sched p q acc).finalP.finished = true ∧
      (consumeLoop fuel sched p q acc).finalQ = [] := by
  induction fuel generalizing sched p q acc with
  | zero => simp [consumeLoop] at h
  | succ fuel ih =>
    unfold consumeLoop at h ⊢
    cases hp1 : prodSteps (sched.headD (0, 0)).1 p q with
    | mk p1 q1 =>
      rw [hp1] at h
      dsimp only at h ⊢
      by_cases hcond : (p1.finished && q1.isEmpty) = true
      · rw [if_pos hcond] at h ⊢
        simp at hcond
        simp [hcond.1, hcond.2]
      · rw [if_neg hcond] at h ⊢
        cases hp2 : prodSteps (sched.headD (0, 0)).2 p1 q1 with
        | mk p2 q2 =>
          rw [hp2] at h
          dsimp only at h ⊢
          cases hq2 : q2 with
          | nil =>
            rw [hq2] at h
            dsimp only at h
            exact ih sched.tail p2 [] acc h
          | cons e rest =>
            rw [hq2] at h
            dsimp only at h
            by_cases he : e = Envelope.streamComplete
            · rw [if_pos he] at h
              simp at h
            · rw [if_neg he] at h
              dsimp only
              rw [if_neg he]
              exact ih sched.tail p2 rest (e :: acc) h

/-- `take` cannot increase the `thread_info` count. -/
theorem countTI_take (l : List Envelope) (k : Nat) :
    countTI (l.take k) ≤ countTI l := by
  induction l generalizing k with
  | nil => simp [countTI]
  | cons e rest ih =>
    cases k with
    | zero => simp [countTI]
    | succ k =>
      simp only [List.take_succ_cons]
      by_cases hti : isThreadInfo e = true <;>
        simp [countTI, List.filter, hti] at ih ⊢ <;>
        exact ih k

/-- `okCT` is closed under prefixes. -/
theorem okCT_take (l : List Envelope) (k : Nat) (h : okCT l = true) :
    okCT (l.take k) = true := by
  induction l generalizing k with
  | nil => simp [okCT]
  | cons e rest ih =>
    cases k with
    | zero => rfl
    | succ k =>
      simp only [List.take_succ_cons]
      by_cases hti : isThreadInfo e = true
      · simp [okCT, hti]
      · simp at hti
        by_cases hce : isContentEnv e = true
        · simp [okCT, hti, hce] at h
        · simp at hce
          simp [okCT, hti, hce] at h ⊢
          exact ih k h

/-- In a non-terminal list followed by one terminal, any terminal member sits
at the very end. -/
theorem term_pos (es : List Envelope) (t : Envelope) :
    ∀ pre e post, noTerminal es = true → isTerminal e = true →
      es ++ [t] = pre ++ e :: post → post = [] := by
  induction es with
  | nil =>
    intro pre e post _ _ heq
    simp only [List.nil_append] at heq
    cases pre with
    | nil =>
      rw [List.nil_append] at heq
      injection heq with h1 h2
      exact h2.symm
    | cons p pre2 =>
      rw [List.cons_append] at heq
      injection heq with h1 h2
      exact absurd h2.symm (by simp)
  | cons x es2 ih =>
    intro pre e post hnt hterm heq
    have hx : isTerminal x = false := by
      have h2 := hnt
      simp [noTerminal] at h2
      exact h2.1
    have hnt2 : noTerminal es2 = true := by
      have h2 := hnt
      simp [noTerminal] at h2 ⊢
      exact h2.2
    cases pre with
    | nil =>
      simp only [List.cons_append, List.nil_append] at heq
      injection heq with h1 h2
      rw [← h1, hx] at hterm
      exact absurd hterm (by simp)
    | cons p pre2 =>
      simp only [List.cons_append] at heq
      injection heq with h1 h2
      exact ih pre2 e post hnt2 hterm h2

/-- A prefix of a non-terminal list followed by one terminal has the same
shape: any terminal member sits at the very end. -/
theorem take_term_pos (es : List Envelope) (t : Envelope) (k : Nat) :
    ∀ pre e post, noTerminal es = true → isTerminal e = true →
      (es ++ [t]).take k = pre ++ e :: post → post = [] := by
  intro pre e post hnt hterm heq
  by_cases hk : k ≤ es.length
  · exfalso
    have htake : (es ++ [t]).take k = es.take k := List.take_append_of_le_length hk
    have hmem : e ∈ es.take k := by
      rw [htake] at heq
      rw [heq]
      simp
    have hmem2 : e ∈ es := List.mem_of_mem_take hmem
    simp [noTerminal, List.all_eq_true] at hnt
    have := hnt e hmem2
    simp [this] at hterm
  · have hlen : (es ++ [t]).length ≤ k := by
      simp at hk ⊢
      omega
    have htake : (es ++ [t]).take k = es ++ [t] := List.take_of_length_le hlen
    rw [htake] at heq
    exact term_pos es t pre e post hnt hterm heq

/-- The producer's whole output carries at most one `thread_info`. -/
theorem countTI_producer (run : UpstreamRun) :
    countTI (agent_stream_task run).envs ≤ 1 := by
  unfold agent_stream_task
  have hloop := countTI_producerLoop run.events true
  cases h : producerLoop true run.events with
  | mk es err =>
    rw [h] at hloop
    simp only [] at hloop
    simp at hloop
    cases err with
    | some msg => simpa [countTI_append, countTI, List.filter, isThreadInfo] using hloop
    | none =>
      cases run.failure with
      | some msg => simpa [countTI_append, countTI, List.filter, isThreadInfo] using hloop
      | none => simpa [countTI_append, countTI, List.filter, isThreadInfo] using hloop

/-- No `content` envelope precedes the `thread_info` in the producer's whole
output. -/
theorem okCT_producer (run : UpstreamRun) :
    okCT (agent_stream_task run).envs = true := by
  unfold agent_stream_task
  have hloop := okCT_producerLoop run.events
  cases h : producerLoop true run.events with
  | mk es err =>
    rw [h] at hloop
    simp only [] at hloop
    cases err with
    | some msg => exact okCT_append_noContent es _ hloop (by simp [isContentEnv])
    | none =>
      cases run.failure with
      | some msg => exact okCT_append_noContent es _ hloop (by simp [isContentEnv])
      | none => exact okCT_append_noContent es _ hloop (by simp [isContentEnv])

/-- The consumer yields an order-preserving prefix of the producer's
envelopes. -/
theorem stream_events_prefix (fuel : Nat) (sched : List (Nat × Nat))
    (P : List Envelope) :
    ∃ k, (stream_events fuel sched P).emitted = P.take k := by
  obtain ⟨k, hk⟩ := consumeLoop_prefix fuel sched ⟨P, false⟩ [] []
  exact ⟨k, by simpa [stream_events] using hk⟩

/-- While the `first_chunk` flag is set, a text-run's producer loop opens with
the first chunk's `thread_info`. -/
theorem producerLoop_textRun_head (a t s : String) (ts : List String) :
    ∃ tail, (producerLoop true (mkTextRun a t (s :: ts)).events).1 =
      Envelope.threadInfo a t :: tail := by
  obtain ⟨tail, htail⟩ := processChunk_true_head (textChunk a t s)
  unfold mkTextRun
  simp only [List.map]
  unfold producerLoop
  cases h : processChunk true (textChunk a t s) with
  | mk es err =>
    rw [h] at htail
    simp only [] at htail
    simp only [textChunk, Option.getD] at htail
    cases err with
    | some msg => exact ⟨tail, by simp [htail]⟩
    | none =>
      cases hrest : producerLoop false
          (List.map (fun x => UpEvent.chunk (textChunk a t x)) ts) with
      | mk es2 err2 =>
        exact ⟨tail ++ es2, by simp [htail]⟩

/-- A text-run's producer output opens with the first chunk's `thread_info`. -/
theorem producer_head_thread_info (a t s : String) (ts : List String) :
    (agent_stream_task (mkTextRun a t (s :: ts))).envs.head? =
      some (Envelope.threadInfo a t) := by
  obtain ⟨tail, htail⟩ := producerLoop_textRun_head a t s ts
  unfold agent_stream_task
  cases h : producerLoop true (mkTextRun a t (s :: ts)).events with
  | mk es err =>
    rw [h] at htail
    simp only [] at htail
    cases err with
    | some msg => simp [htail]
    | none =>
      cases hfail : (mkTextRun a t (s :: ts)).failure with
      | some msg => simp [htail]
      | none => simp [htail]

/-- C1: for every request with a non-empty `query`, the envelope sequence
`event_stream` yields contains at most one terminal envelope; that envelope is
either `stream_complete` or `error`, and it is the last envelope emitted —
nothing follows it. -/
theorem c1_terminal_envelope_last
    (remote : String → Option String → UpstreamRun) (r : ShadowRequest)
    (fuel : Nat) (sched : List (Nat × Nat))
    (pre : List Envelope) (e : Envelope) (post : List Envelope)
    (_hq : r.query ≠ "")
    (hsplit : (event_stream remote r fuel sched).emitted = pre ++ e :: post)
    (hterm : isTerminal e = true) :
    (e = Envelope.streamComplete ∨ ∃ msg, e = Envelope.error msg) ∧ post = [] := by
  obtain ⟨es, t, hP, hnt, hterm2, _⟩ :=
    producer_envs_split (remote (combined_query r) (currentThreadOf r.threadId))
  obtain ⟨k, hk⟩ := stream_events_prefix fuel sched
    (agent_stream_task (remote (combined_query r) (currentThreadOf r.threadId))).envs
  unfold event_stream at hsplit
  rw [hk, hP] at hsplit
  constructor
  · cases e <;> simp [isTerminal] at hterm <;> simp
  · exact take_term_pos es t k pre e post hnt hterm hsplit

/-- Witness for C1: a concrete remote, request and schedule; the stream ends
in `stream_complete` with nothing after it. -/
theorem c1_terminal_envelope_last_witness :
    ("q" : String) ≠ "" ∧
      (event_stream (fun _ _ => mkTextRun "A" "T" ["hi"])
          ⟨"q", "", none, none, none, none⟩ 4 [(4, 0), (0, 0), (0, 0)]).emitted =
        [Envelope.threadInfo "A" "T", Envelope.content "hi"] ++
          Envelope.streamComplete :: [] ∧
      isTerminal Envelope.streamComplete = true ∧
      ((Envelope.streamComplete = Envelope.streamComplete ∨
          ∃ msg, Envelope.streamComplete = Envelope.error msg) ∧
        ([] : List Envelope) = []) :=
  ⟨by decide, by decide, by decide,
    c1_terminal_envelope_last (fun _ _ => mkTextRun "A" "T" ["hi"])
      ⟨"q", "", none, none, none, none⟩ 4 [(4, 0), (0, 0), (0, 0)]
      [Envelope.threadInfo "A" "T", Envelope.content "hi"]
      Envelope.streamComplete [] (by decide) (by decide) (by decide)⟩

/-- C4: in every stream, `thread_info` is emitted at most once; no `content`
envelope precedes it; and it is emitted on the first upstream chunk (a
text-run's stream opens with it). -/
theorem c4_thread_info_once_before_content
    (remote : String → Option String → UpstreamRun) (r : ShadowRequest)
    (fuel : Nat) (sched : List (Nat × Nat)) :
    countTI (event_stream remote r fuel sched).emitted ≤ 1 ∧
      okCT (event_stream remote r fuel sched).emitted = true ∧
      ∀ a t s ts, (agent_stream_task (mkTextRun a t (s :: ts))).envs.head? =
        some (Envelope.threadInfo a t) := by
  obtain ⟨k, hk⟩ := stream_events_prefix fuel sched
    (agent_stream_task (remote (combined_query r) (currentThreadOf r.threadId))).envs
  refine ⟨?_, ?_, fun a t s ts => producer_head_thread_info a t s ts⟩
  · unfold event_stream
    rw [hk]
    exact le_trans (countTI_take _ k) (countTI_producer _)
  · unfold event_stream
    rw [hk]
    exact okCT_take _ k (okCT_producer _)

/-! ### Content-envelope lemmas (C2) -/

theorem contentTexts_append (xs ys : List Envelope) :
    contentTexts (xs ++ ys) = contentTexts xs ++ contentTexts ys := by
  simp [contentTexts, List.filterMap_append]

theorem contentTexts_plain (xs : List Envelope) (h : xs.all plainEnv = true) :
    contentTexts xs = [] := by
  induction xs with
  | nil => rfl
  | cons e rest ih =>
    simp at h
    have he : isContentEnv e = false := (plainEnv_spec e h.1).2.1
    have hrest := ih (List.all_eq_true.mpr h.2)
    cases e <;> simp [isContentEnv] at he ⊢ <;>
      simpa [contentTexts, List.filterMap] using hrest

/-- Evaluation of one text-only chunk. -/
theorem processChunk_textChunk (first : Bool) (a t s : String) :
    processChunk first (textChunk a t s) =
      ((if first then [Envelope.threadInfo a t] else []) ++
        (if (pyStrip s).isEmpty then [] else [Envelope.content s]), none) := by
  simp [processChunk, textChunk, processMainItems, pyStr]

/-- On a text-only upstream run the producer loop raises nothing, and emits a
`content` envelope for exactly the chunks whose text is non-empty after
`strip()`, carrying the chunk text unmodified. -/
theorem producerLoop_textRun (a t : String) (texts : List String) :
    ∀ first,
      (producerLoop first
        (texts.map (fun s => UpEvent.chunk (textChunk a t s)))).2 = none ∧
      contentTexts (producerLoop first
          (texts.map (fun s => UpEvent.chunk (textChunk a t s)))).1 =
        texts.filter (fun s => !(pyStrip s).isEmpty) := by
  induction texts with
  | nil => intro first; exact ⟨rfl, rfl⟩
  | cons s rest ih =>
    intro first
    simp only [List.map]
    unfold producerLoop
    rw [processChunk_textChunk first a t s]
    cases hrest : producerLoop false
        (rest.map (fun x => UpEvent.chunk (textChunk a t x))) with
    | mk es2 err2 =>
      have hih := ih false
      rw [hrest] at hih
      simp only [] at hih
      dsimp only
      refine ⟨hih.1, ?_⟩
      rw [contentTexts_append, contentTexts_append, hih.2]
      have hti : contentTexts (if first then [Envelope.threadInfo a t] else []) = [] := by
        cases first <;> simp [contentTexts]
      rw [hti]
      by_cases hs : (pyStrip s).isEmpty = true
      · simp [hs, contentTexts, List.filter_cons]
      · simp at hs
        simp [hs, contentTexts, List.filter_cons]

/-- C2 is false as the claim states it: the chunk text `" "` is a non-empty
string, yet the stream emits no `content` envelope for it (the source guards
on `content.strip()`, not on `content`). -/
theorem c2_counterexample :
    (" " : String) ≠ "" ∧
      contentTexts (agent_stream_task (mkTextRun "A" "T" [" "])).envs = [] := by
  exact ⟨by decide, by decide⟩

/-- C2 (amended): a `content` envelope is emitted for a native chunk iff the
chunk's text is non-empty after stripping whitespace, and when emitted it
carries exactly the original (unstripped) text; for simulated chunks
`["Hel", "lo", ""]` the content envelopes are exactly `"Hel"`, `"lo"`. -/
theorem c2_content_iff_nonblank :
    (∀ (a t : String) (texts : List String),
      contentTexts (agent_stream_task (mkTextRun a t texts)).envs =
        texts.filter (fun s => !(pyStrip s).isEmpty)) ∧
    (∀ (first : Bool) (c : Chunk) (s : String),
      c.content = some (PyVal.vstr s) →
      (processMainItems c.items).2 = none →
      contentTexts (processChunk first c).1 =
        if (pyStrip s).isEmpty then [] else [s]) ∧
    contentTexts (agent_stream_task (mkTextRun "A" "T" ["Hel", "lo", ""])).envs =
      ["Hel", "lo"] := by
  refine ⟨?_, ?_, by decide⟩
  · intro a t texts
    have h := producerLoop_textRun a t texts true
    unfold agent_stream_task
    cases hloop : producerLoop true (mkTextRun a t texts).events with
    | mk es err =>
      rw [show (mkTextRun a t texts).events =
            texts.map (fun s => UpEvent.chunk (textChunk a t s)) from rfl] at hloop
      rw [hloop] at h
      simp only [] at h
      cases err with
      | some msg => exact absurd h.1 (by simp)
      | none =>
        simp only [mkTextRun]
        rw [contentTexts_append, h.2]
        simp [contentTexts]
  · intro first c s hc hitems
    unfold processChunk
    cases hmi : processMainItems c.items with
    | mk es err =>
      rw [hmi] at hitems
      simp only [] at hitems
      subst hitems
      rw [hc]
      simp only [pyStr]
      have hplain := plainEnv_processMainItems c.items
      rw [hmi] at hplain
      simp only [] at hplain
      rw [contentTexts_append, contentTexts_append, contentTexts_plain es hplain]
      have hti : contentTexts
          (if first then
            [Envelope.threadInfo (c.name.getD "Unknown") (c.thread.getD "Unknown")]
          else []) = [] := by
        cases first <;> simp [contentTexts]
      rw [hti]
      by_cases hs : (pyStrip s).isEmpty = true
      · simp [hs, contentTexts]
      · simp at hs
        simp [hs, contentTexts]

/-- Witness for C2 (amended), discharging the per-chunk hypotheses at a
concrete chunk whose text is blank but non-empty. -/
theorem c2_content_iff_nonblank_witness :
    (textChunk "A" "T" " ").content = some (PyVal.vstr " ") ∧
      (processMainItems (textChunk "A" "T" " ").items).2 = none ∧
      contentTexts (processChunk true (textChunk "A" "T" " ")).1 =
        (if (pyStrip " ").isEmpty then [] else [" "]) :=
  ⟨by decide, by decide,
    c2_content_iff_nonblank.2.1 true (textChunk "A" "T" " ") " "
      (by decide) (by decide)⟩

/-- C6: on every run the producer enqueues exactly one terminal envelope as
its last enqueue — `stream_complete` when the native stream is exhausted
without error, an `error` envelope carrying the exception message when one
escapes (either mid-stream or at its end) — and `stream_finished` is set in
both the success and the failure path. -/
theorem c6_producer_terminal (run : UpstreamRun) :
    (agent_stream_task run).stream_finished = true ∧
    ∃ es t, (agent_stream_task run).envs = es ++ [t] ∧ noTerminal es = true ∧
      isTerminal t = true ∧
      (match (producerLoop true run.events).2 with
       | some msg => t = Envelope.error msg
       | none =>
         match run.failure with
         | some msg => t = Envelope.error msg
         | none => t = Envelope.streamComplete) := by
  have hnt := noTerminal_producerLoop run.events true
  unfold agent_stream_task
  cases h : producerLoop true run.events with
  | mk es err =>
    rw [h] at hnt
    simp only [] at hnt
    cases err with
    | some msg =>
      exact ⟨rfl, es, Envelope.error msg, by simp, hnt, by simp [isTerminal], by simp⟩
    | none =>
      cases hfail : run.failure with
      | some msg =>
        exact ⟨rfl, es, Envelope.error msg, by simp, hnt, by simp [isTerminal], by simp⟩
      | none =>
        exact ⟨rfl, es, Envelope.streamComplete, by simp, hnt,
          by simp [isTerminal], by simp⟩

/-! ### Transport validation (C3) -/

/-- C3 is false as the claim states it: a body with an empty-string `query`
and a string `threadId` passes pydantic validation, so the stream starts
rather than being rejected with a client error. -/
theorem c3_counterexample :
    shadow_sk [("query", JVal.jstr ""), ("threadId", JVal.jstr "t")] =
        TransportOutcome.streamStarted ⟨"", "t", none, none, none, none⟩ ∧
      shadow_sk [("query", JVal.jstr ""), ("threadId", JVal.jstr "t")] ≠
        TransportOutcome.clientError :=
  ⟨by decide, by decide⟩

/-- C3 (amended): the transport rejects a request with a client error iff
pydantic validation fails — in particular whenever `threadId` is absent or
not a string — but an empty-string `query` passes validation and the stream
starts. -/
theorem c3_validation (body : List (String × JVal)) :
    (∀ v, lookupJ body "threadId" = some v → reqStr (some v) = none →
      shadow_sk body = TransportOutcome.clientError) ∧
    (lookupJ body "threadId" = none →
      shadow_sk body = TransportOutcome.clientError) ∧
    (lookupJ body "query" = none →
      shadow_sk body = TransportOutcome.clientError) ∧
    (∀ q tid, shadow_sk [("query", JVal.jstr q), ("threadId", JVal.jstr tid)] =
      TransportOutcome.streamStarted ⟨q, tid, none, none, none, none⟩) := by
  refine ⟨?_, ?_, ?_, fun q tid => rfl⟩
  · intro v hv hnone
    rw [← hv] at hnone
    unfold shadow_sk parseShadowRequest
    cases hq : reqStr (lookupJ body "query") <;>
      simp [Option.bind, hq, hnone]
  · intro hv
    unfold shadow_sk parseShadowRequest
    cases hq : reqStr (lookupJ body "query") <;>
      simp [Option.bind, hq, hv, reqStr]
  · intro hv
    unfold shadow_sk parseShadowRequest
    simp [Option.bind, hv, reqStr]

/-- Witness for C3 (amended): an integer `threadId` is rejected. -/
theorem c3_validation_witness :
    lookupJ [("query", JVal.jstr "hi"), ("threadId", JVal.jint 3)] "threadId" =
        some (JVal.jint 3) ∧
      reqStr (some (JVal.jint 3)) = none ∧
      shadow_sk [("query", JVal.jstr "hi"), ("threadId", JVal.jint 3)] =
        TransportOutcome.clientError :=
  ⟨by decide, by decide,
    (c3_validation [("query", JVal.jstr "hi"), ("threadId", JVal.jint 3)]).1
      (JVal.jint 3) (by decide) (by decide)⟩

/-! ### Thread-id resolution (C5) -/

theorem createThread_ne_empty (c : Nat) : createThread c ≠ "" := by
  intro h
  have h2 : List.replicate (c + 1) 't' = ([] : List Char) :=
    congrArg String.data h
  have h3 := congrArg List.length h2
  simp at h3

theorem createThread_inj (c1 c2 : Nat) (h : createThread c1 = createThread c2) :
    c1 = c2 := by
  have h2 : List.replicate (c1 + 1) 't' = List.replicate (c2 + 1) 't' :=
    congrArg String.data h
  have h3 := congrArg List.length h2
  simp at h3
  exact h3

/-- On the spec-modelled remote, the thread id surfaced in `thread_info` is
the resolved one, for any non-empty chunk stream. -/
theorem eventStreamThreadId_eval (r : ShadowRequest) (counter : Nat)
    (a s : String) (ts : List String) :
    eventStreamThreadId r counter a (s :: ts) =
      some (resolvedThreadId r.threadId counter) := by
  unfold eventStreamThreadId invokeStreamModel
  obtain ⟨tail, htail⟩ :=
    producerLoop_textRun_head a (resolvedThreadId r.threadId counter) s ts
  unfold agent_stream_task
  cases h : producerLoop true
      (mkTextRun a (resolvedThreadId r.threadId counter) (s :: ts)).events with
  | mk es err =>
    rw [h] at htail
    simp only [] at htail
    cases err with
    | some msg => simp [htail, firstThreadInfoId]
    | none =>
      cases hfail :
          (mkTextRun a (resolvedThreadId r.threadId counter) (s :: ts)).failure with
      | some msg => simp [htail, firstThreadInfoId]
      | none => simp [htail, firstThreadInfoId]

/-- C5: a request supplying a non-empty `threadId` sees exactly that id in
`thread_info`; a request supplying `threadId = ""` gets a newly generated
non-empty id; and two requests with empty `threadId` (distinct service
counters) get different ids. -/
theorem c5_thread_id_resolution :
    (∀ (r : ShadowRequest) (counter : Nat) (a s : String) (ts : List String),
      r.threadId ≠ "" →
      eventStreamThreadId r counter a (s :: ts) = some r.threadId) ∧
    (∀ (r : ShadowRequest) (counter : Nat) (a s : String) (ts : List String),
      r.threadId = "" →
      ∃ id, eventStreamThreadId r counter a (s :: ts) = some id ∧ id ≠ "") ∧
    (∀ (r1 r2 : ShadowRequest) (c1 c2 : Nat) (a1 a2 s1 s2 : String)
        (ts1 ts2 : List String),
      r1.threadId = "" → r2.threadId = "" → c1 ≠ c2 →
      eventStreamThreadId r1 c1 a1 (s1 :: ts1) ≠
        eventStreamThreadId r2 c2 a2 (s2 :: ts2)) := by
  refine ⟨?_, ?_, ?_⟩
  · intro r counter a s ts h
    rw [eventStreamThreadId_eval]
    simp [resolvedThreadId, currentThreadOf, remoteResolvedThread,
      String.isEmpty_iff, h]
  · intro r counter a s ts h
    rw [eventStreamThreadId_eval]
    refine ⟨createThread counter, ?_, createThread_ne_empty counter⟩
    simp [resolvedThreadId, currentThreadOf, remoteResolvedThread,
      String.isEmpty_iff, h]
  · intro r1 r2 c1 c2 a1 a2 s1 s2 ts1 ts2 h1 h2 hc
    rw [eventStreamThreadId_eval, eventStreamThreadId_eval]
    simp [resolvedThreadId, currentThreadOf, remoteResolvedThread,
      String.isEmpty_iff, h1, h2]
    intro heq
    exact hc (createThread_inj c1 c2 heq)

/-- Witness for C5 at the spec's example id and two concrete counters. -/
theorem c5_thread_id_resolution_witness :
    ("abc123" : String) ≠ "" ∧
      eventStreamThreadId ⟨"hi", "abc123", none, none, none, none⟩ 0 "A" ["x"] =
        some "abc123" ∧
      (0 : Nat) ≠ 1 ∧
      eventStreamThreadId ⟨"hi", "", none, none, none, none⟩ 0 "A" ["x"] ≠
        eventStreamThreadId ⟨"hi", "", none, none, none, none⟩ 1 "A" ["x"] :=
  ⟨by decide,
    c5_thread_id_resolution.1 ⟨"hi", "abc123", none, none, none, none⟩ 0 "A" "x"
      [] (by decide),
    by decide,
    c5_thread_id_resolution.2.2 ⟨"hi", "", none, none, none, none⟩
      ⟨"hi", "", none, none, none, none⟩ 0 1 "A" "A" "x" "x" [] [] rfl rfl
      (by decide)⟩

/-! ### The polling consumer (C7) -/

/-- C7: the consumer polls the shared queue with a bounded 100 ms timeout; a
timed-out iteration terminates the loop only when the producer has finished
and the queue is empty (otherwise polling continues); and whenever the loop
exits, the producer task is awaited. -/
theorem c7_poll_and_await :
    pollTimeoutMs = 100 ∧
    (∀ (fuel : Nat) (sched : List (Nat × Nat)) (P : List Envelope),
      (stream_events fuel sched P).exit = ExitKind.condExit →
      (stream_events fuel sched P).producerFinished = true ∧
      (stream_events fuel sched P).finalQueue = []) ∧
    (∀ (fuel : Nat) (sched : List (Nat × Nat)) (P : List Envelope),
      (stream_events fuel sched P).exit ≠ ExitKind.fuelOut →
      (stream_events fuel sched P).awaitedProducer = true) := by
  refine ⟨rfl, ?_, ?_⟩
  · intro fuel sched P h
    have h2 := consumeLoop_condExit fuel sched ⟨P, false⟩ [] []
      (by simpa [stream_events] using h)
    simpa [stream_events] using h2
  · intro fuel sched P h
    simp only [stream_events] at h ⊢

/-- Witness for C7: a producer that enqueues a lone `error` envelope; the
loop drains it and then exits through the condition with the queue empty. -/
theorem c7_poll_and_await_witness :
    (stream_events 2 [(2, 0)] [Envelope.error "x"]).exit = ExitKind.condExit ∧
      (stream_events 2 [(2, 0)] [Envelope.error "x"]).producerFinished = true ∧
      (stream_events 2 [(2, 0)] [Envelope.error "x"]).finalQueue = [] ∧
      (stream_events 2 [(2, 0)] [Envelope.error "x"]).awaitedProducer = true :=
  ⟨by decide,
    (c7_poll_and_await.2.1 2 [(2, 0)] [Envelope.error "x"] (by decide)).1,
    (c7_poll_and_await.2.1 2 [(2, 0)] [Envelope.error "x"] (by decide)).2,
    c7_poll_and_await.2.2 2 [(2, 0)] [Envelope.error "x"] (by decide)⟩

/-! ### Notification-error isolation (C8) -/

/-- C8: if building the envelope for one notification item raises, the
callback catches it locally, enqueues exactly one `intermediate_error`
envelope carrying the failure text and the item's type name, and processes
the remaining items unchanged; and a stream with such a malformed item in a
callback still emits a subsequent `content` envelope. -/
theorem c8_intermediate_error_isolated (pre post : List Item) (it : Item)
    (msg : String) (hfail : buildEnvelope it = Except.error msg) :
    handle_streaming_intermediate_steps (pre ++ it :: post) =
      handle_streaming_intermediate_steps pre ++
        Envelope.intermediateError msg it.typeName ::
          handle_streaming_intermediate_steps post ∧
    (∀ (a t s : String), (pyStrip s).isEmpty = false →
      (agent_stream_task
        ⟨[UpEvent.callback (pre ++ it :: post),
          UpEvent.chunk (textChunk a t s)], none⟩).envs =
        handle_streaming_intermediate_steps pre ++
          Envelope.intermediateError msg it.typeName ::
            (handle_streaming_intermediate_steps post ++
              [Envelope.threadInfo a t, Envelope.content s,
                Envelope.streamComplete])) := by
  have h1 : processItem it = Envelope.intermediateError msg it.typeName := by
    unfold processItem
    rw [hfail]
  constructor
  · simp [handle_streaming_intermediate_steps, h1]
  · intro a t s hs
    have h2 : producerLoop true
        [UpEvent.callback (pre ++ it :: post),
          UpEvent.chunk (textChunk a t s)] =
        (handle_streaming_intermediate_steps (pre ++ it :: post) ++
          ([Envelope.threadInfo a t] ++ [Envelope.content s]), none) := by
      simp [producerLoop, processChunk_textChunk, hs]
    unfold agent_stream_task
    rw [show (⟨[UpEvent.callback (pre ++ it :: post),
          UpEvent.chunk (textChunk a t s)], none⟩ : UpstreamRun).events =
        [UpEvent.callback (pre ++ it :: post),
          UpEvent.chunk (textChunk a t s)] from rfl, h2]
    simp [handle_streaming_intermediate_steps, h1]

/-- Witness for C8: a `FunctionResultContent` whose result cannot be
serialized yields one `intermediate_error` and the stream still carries the
following `content` envelope. -/
theorem c8_intermediate_error_isolated_witness :
    buildEnvelope (Item.funcResult "search" (PyVal.vobj false "boom")) =
        Except.error "boom" ∧
      (pyStrip "ok").isEmpty = false ∧
      (agent_stream_task
        ⟨[UpEvent.callback [Item.funcResult "search" (PyVal.vobj false "boom")],
          UpEvent.chunk (textChunk "A" "T" "ok")], none⟩).envs =
        [Envelope.intermediateError "boom" "FunctionResultContent",
          Envelope.threadInfo "A" "T", Envelope.content "ok",
          Envelope.streamComplete] := by
  refine ⟨rfl, by decide, ?_⟩
  have h := (c8_intermediate_error_isolated [] []
    (Item.funcResult "search" (PyVal.vobj false "boom")) "boom" rfl).2
    "A" "T" "ok" (by decide)
  simpa [handle_streaming_intermediate_steps, Item.typeName] using h

/-! ### Response metadata and wire format (C9) -/

/-- C9: the `POST /shadow-sk` response has status 200 with headers
`Content-Type: text/event-stream`, `Cache-Control: no-cache`,
`Connection: keep-alive`, and each yielded envelope is framed on the wire as
the SSE record `event: <type>\ndata: <json>\n\n`. -/
theorem c9_response_meta_and_sse_format :
    shadow_sk_response.status_code = 200 ∧
    headerValue shadow_sk_response "Content-Type" = some "text/event-stream" ∧
    headerValue shadow_sk_response "Cache-Control" = some "no-cache" ∧
    headerValue shadow_sk_response "Connection" = some "keep-alive" ∧
    (∀ e : Envelope, sseOfEnvelope e =
      "event: " ++ envelopeEventType e ++ "\n" ++
        "data: " ++ envelopeJson e ++ "\n\n") ∧
    (∀ emitted : List Envelope,
      wireOf emitted = String.join (emitted.map sseOfEnvelope)) :=
  ⟨rfl, by decide, by decide, by decide, fun _ => rfl, fun _ => rfl⟩

/-! ### The combined query (C10) -/

theorem str_append_right_ne (s t : String) (ht : t ≠ "") : s ++ t ≠ s := by
  intro heq
  have hd : s.data ++ t.data = s.data := by
    have := congrArg String.data heq
    rwa [String.data_append] at this
  have hd2 : s.data ++ t.data = s.data ++ [] := by simpa using hd
  have hnil : t.data = [] := List.append_cancel_left hd2
  exact ht (String.ext hnil)

/-- C10: the message sent to the upstream assistant is the query text
followed by `" - "` and the textual form of the params mapping (keys
`target_account`, `user_company`, `demand_stage`, each `None` when absent);
in particular it is never exactly the raw query. -/
theorem c10_combined_query (r : ShadowRequest) :
    combined_query r = r.query ++ " - " ++ paramsStr r ∧
    paramsStr r =
      "\x7b'target_account': " ++ reprParam r.target_account ++
        ", 'user_company': " ++ reprParam r.user_company ++
        ", 'demand_stage': " ++ reprParam r.demand_stage ++ "\x7d" ∧
    combined_query r ≠ r.query ∧
    (r.target_account = none → r.user_company = none → r.demand_stage = none →
      combined_query r =
        r.query ++
          " - \x7b'target_account': None, 'user_company': None, 'demand_stage': None\x7d") := by
  refine ⟨rfl, rfl, ?_, ?_⟩
  · have hne : (" - " ++ paramsStr r) ≠ "" := by
      intro h
      have h2 : (' ' :: '-' :: ' ' :: (paramsStr r).data) = ([] : List Char) :=
        congrArg String.data h
      exact List.cons_ne_nil _ _ h2
    have := str_append_right_ne r.query (" - " ++ paramsStr r) hne
    rwa [combined_query, String.append_assoc]
  · intro h1 h2 h3
    rw [combined_query, String.append_assoc]
    rw [show paramsStr r =
      "\x7b'target_account': None, 'user_company': None, 'demand_stage': None\x7d" by
      simp [paramsStr, reprParam, h1, h2, h3]]
    rfl

/-- Witness for C10 with all optional fields absent. -/
theorem c10_combined_query_witness :
    (⟨"hi", "", none, none, none, none⟩ : ShadowRequest).target_account = none ∧
      (⟨"hi", "", none, none, none, none⟩ : ShadowRequest).user_company = none ∧
      (⟨"hi", "", none, none, none, none⟩ : ShadowRequest).demand_stage = none ∧
      combined_query ⟨"hi", "", none, none, none, none⟩ =
        "hi" ++
          " - \x7b'target_account': None, 'user_company': None, 'demand_stage': None\x7d" :=
  ⟨rfl, rfl, rfl,
    (c10_combined_query ⟨"hi", "", none, none, none, none⟩).2.2.2 rfl rfl rfl⟩

end ShadowFastapi
